import Mathlib

/-!
Shallow embedding of `src/test-script/pyspark-test.py`, a 14-line PySpark
smoke test:

  spark = SparkSession.builder.appName("SimpleApp").getOrCreate()
  sc = spark.sparkContext
  logData = spark.read.text("/abc").cache()
  numAs = logData.filter(logData.value.contains('a')).count()
  numBs = logData.filter(logData.value.contains('b')).count()
  print("Lines with a: %i, lines with b: %i" % (numAs, numBs))
  spark.stop()

The record collection produced by `spark.read.text` is modelled as a
`List String` (one record per line).  `Column.contains` is case-sensitive
exact substring containment, modelled character-exactly below.  The whole
script is a pure function of the content of the resource `/abc`
(`none` meaning the path does not exist), returning the lines printed to
standard output, the trace of executed steps and a failure flag.
-/

/-- Character-exact test that `l` begins with `sub`. -/
def startsWithSub : List Char → List Char → Bool
  | [], _ => true
  | _ :: _, [] => false
  | a :: as, b :: bs => a == b && startsWithSub as bs

/-- Case-sensitive exact substring containment on character lists:
`sub` occurs contiguously somewhere in `l`. -/
def containsList (l sub : List Char) : Bool :=
  startsWithSub sub l ||
    match l with
    | [] => false
    | _ :: rest => containsList rest sub

/-- Pyspark's `Column.contains` on a text line: case-sensitive exact
substring containment, no regex, no normalization. -/
def strContains (line sub : String) : Bool :=
  containsList line.data sub.data

/-- One Query Runner step: `logData.filter(logData.value.contains(sub)).count()`. -/
def filterCount (logData : List String) (sub : String) : Nat :=
  (logData.filter fun line => strContains line sub).length

/-- Line 9 of the script: `numAs = logData.filter(logData.value.contains('a')).count()`. -/
def numAs (logData : List String) : Nat := filterCount logData "a"

/-- Line 10 of the script: `numBs = logData.filter(logData.value.contains('b')).count()`. -/
def numBs (logData : List String) : Nat := filterCount logData "b"

/-- Line 12 of the script: the fixed output template
`"Lines with a: %i, lines with b: %i" % (numAs, numBs)` (the counts are
non-negative, so `%i` prints them in plain decimal). -/
def reportLine (nA nB : Nat) : String :=
  "Lines with a: " ++ Nat.repr nA ++ ", lines with b: " ++ Nat.repr nB

/-- The observable steps of the script, in source order. -/
inductive Step
  | init | read | countA | countB | report | shutdown
  deriving DecidableEq, Repr

/-- What one execution of the script produces: the lines printed to
standard output, the trace of completed steps, and whether the run
terminated with an unhandled failure. -/
structure RunOutcome where
  printed : List String
  steps : List Step
  failed : Bool
  deriving DecidableEq, Repr

/-- The whole script as a function of the content of `/abc`:
`none` means the path does not exist, in which case line 7 raises a
resource-not-found failure that propagates unhandled (nothing after the
read runs); `some logData` is the list of text lines of the resource. -/
def runScript (resource : Option (List String)) : RunOutcome :=
  match resource with
  | none =>
      { printed := [], steps := [Step.init], failed := true }
  | some logData =>
      { printed := [reportLine (numAs logData) (numBs logData)]
        steps := [Step.init, Step.read, Step.countA, Step.countB,
                  Step.report, Step.shutdown]
        failed := false }

/-- The script run against a time-varying source: `source t` is the content
of `/abc` at time `t`.  Line 7 reads the source exactly once, at time 0,
and caches the resulting collection; both counts and the report are
evaluated against that cached snapshot, so no later value of `source` is
ever consulted. -/
def runScriptCached (source : Nat → List String) : RunOutcome :=
  let logData := source 0
  { printed := [reportLine (numAs logData) (numBs logData)]
    steps := [Step.init, Step.read, Step.countA, Step.countB,
              Step.report, Step.shutdown]
    failed := false }

/-- Specification-level substring containment: `sub` occurs contiguously
in `line` (case-sensitive, exact). -/
def ContainsSpec (line sub : String) : Prop :=
  ∃ p q, line.data = p ++ sub.data ++ q

theorem startsWithSub_iff (sub l : List Char) :
    startsWithSub sub l = true ↔ ∃ q, l = sub ++ q := by
  induction sub generalizing l with
  | nil => simp [startsWithSub]
  | cons a as ih =>
      cases l with
      | nil => simp [startsWithSub]
      | cons b bs =>
          simp only [startsWithSub, Bool.and_eq_true, beq_iff_eq, ih,
            List.cons_append]
          constructor
          · rintro ⟨rfl, q, rfl⟩
            exact ⟨q, rfl⟩
          · rintro ⟨q, h⟩
            injection h with h1 h2
            exact ⟨h1.symm, q, h2⟩

theorem containsList_iff (l sub : List Char) :
    containsList l sub = true ↔ ∃ p q, l = p ++ sub ++ q := by
  induction l with
  | nil =>
      constructor
      · intro h
        have h' : startsWithSub sub [] = true := by
          simpa [containsList] using h
        obtain ⟨q, hq⟩ := (startsWithSub_iff sub []).mp h'
        exact ⟨[], q, hq⟩
      · rintro ⟨p, q, hpq⟩
        have hp := List.append_eq_nil.mp (List.append_eq_nil.mp hpq.symm).1
        have hq := (List.append_eq_nil.mp hpq.symm).2
        have hs : startsWithSub sub [] = true :=
          (startsWithSub_iff sub []).mpr ⟨[], by simp [hp.2]⟩
        simp [containsList, hs]
  | cons a rest ih =>
      constructor
      · intro h
        have h' : startsWithSub sub (a :: rest) = true ∨
            containsList rest sub = true := by
          simpa [containsList, Bool.or_eq_true] using h
        rcases h' with h' | h'
        · obtain ⟨q, hq⟩ := (startsWithSub_iff _ _).mp h'
          exact ⟨[], q, by simpa using hq⟩
        · obtain ⟨p, q, hpq⟩ := ih.mp h'
          exact ⟨a :: p, q, by simp [hpq]⟩
      · rintro ⟨p, q, hpq⟩
        cases p with
        | nil =>
            have hs : startsWithSub sub (a :: rest) = true :=
              (startsWithSub_iff _ _).mpr ⟨q, by simpa using hpq⟩
            simp [containsList, hs]
        | cons b p' =>
            have hb : a = b ∧ rest = p' ++ sub ++ q := by
              simpa using hpq
            have hc : containsList rest sub = true := ih.mpr ⟨p', q, hb.2⟩
            simp [containsList, hc]

theorem strContains_iff (line sub : String) :
    strContains line sub = true ↔ ContainsSpec line sub :=
  containsList_iff line.data sub.data

instance instDecidableContainsSpec (line sub : String) :
    Decidable (ContainsSpec line sub) :=
  decidable_of_iff _ (strContains_iff line sub)

theorem decide_containsSpec (line sub : String) :
    decide (ContainsSpec line sub) = strContains line sub := by
  cases hb : strContains line sub with
  | false =>
      exact decide_eq_false fun h =>
        absurd ((strContains_iff line sub).mpr h) (by simp [hb])
  | true =>
      exact decide_eq_true ((strContains_iff line sub).mp hb)

/-- C1: for every record collection and each of the two substring constants
"a" and "b", the Query Runner step returns the number of records whose text
contains that substring under case-sensitive, exact substring containment,
and that result is a non-negative integer. -/
theorem C1_query_runner_correct (logData : List String) :
    numAs logData
      = (logData.filter fun line => decide (ContainsSpec line "a")).length ∧
    numBs logData
      = (logData.filter fun line => decide (ContainsSpec line "b")).length ∧
    0 ≤ numAs logData ∧ 0 ≤ numBs logData := by
  simp only [numAs, numBs, filterCount, decide_containsSpec]
  exact ⟨trivial, trivial, Nat.zero_le _, Nat.zero_le _⟩

/-- C2: on the input `["banana", "apple", "cherry"]` the count for "a" is 2,
the count for "b" is 1, and the script prints exactly the line
`Lines with a: 2, lines with b: 1`. -/
theorem C2_banana_apple_cherry :
    numAs ["banana", "apple", "cherry"] = 2 ∧
    numBs ["banana", "apple", "cherry"] = 1 ∧
    (runScript (some ["banana", "apple", "cherry"])).printed
      = ["Lines with a: 2, lines with b: 1"] := by
  decide

/-- C3: on an input resource with zero lines both counts are 0 and the
script prints exactly the line `Lines with a: 0, lines with b: 0`. -/
theorem C3_empty_resource :
    numAs [] = 0 ∧ numBs [] = 0 ∧
    (runScript (some [])).printed = ["Lines with a: 0, lines with b: 0"] := by
  decide

/-- C4: a single line containing both substrings is counted once in each
count: on `["banana"]` both counts are 1 and the script prints exactly
`Lines with a: 1, lines with b: 1`. -/
theorem C4_banana_both :
    numAs ["banana"] = 1 ∧ numBs ["banana"] = 1 ∧
    (runScript (some ["banana"])).printed
      = ["Lines with a: 1, lines with b: 1"] := by
  decide

/-- C5: on every successful run the Reporter emits exactly one line to
standard output, and that line is the fixed template with the two counts
substituted: `Lines with a: <N>, lines with b: <M>`. -/
theorem C5_reporter_single_line (logData : List String) :
    (runScript (some logData)).printed
      = [reportLine (numAs logData) (numBs logData)] ∧
    (runScript (some logData)).printed.length = 1 ∧
    reportLine (numAs logData) (numBs logData)
      = "Lines with a: " ++ Nat.repr (numAs logData)
        ++ ", lines with b: " ++ Nat.repr (numBs logData) :=
  ⟨rfl, rfl, rfl⟩

/-- C6: if the input path does not exist the script terminates with a
failure, produces no output line, and the report step is never reached. -/
theorem C6_missing_path_no_output :
    (runScript none).failed = true ∧
    (runScript none).printed = [] ∧
    Step.report ∉ (runScript none).steps := by
  decide

/-- C7: both counts are evaluated against the identical cached collection
read once at time 0, so the run equals the run on that single snapshot, and
an external mutation of the source after time 0 cannot change the outcome:
any two time-varying sources agreeing at time 0 yield identical outcomes. -/
theorem C7_cached_snapshot (s1 s2 : Nat → List String) (h : s1 0 = s2 0) :
    runScriptCached s1 = runScript (some (s1 0)) ∧
    runScriptCached s1 = runScriptCached s2 := by
  refine ⟨rfl, ?_⟩
  simp [runScriptCached, h]

/-- Witness for C7: the source mutated to empty at every time after 0
still yields the outcome of the unmutated source. -/
theorem C7_cached_snapshot_witness :
    runScriptCached (fun _ => ["banana"]) = runScript (some ["banana"]) ∧
    runScriptCached (fun _ => ["banana"])
      = runScriptCached (fun t => if t = 0 then ["banana"] else []) :=
  C7_cached_snapshot (fun _ => ["banana"])
    (fun t => if t = 0 then ["banana"] else []) rfl

/-- C8: the script is deterministic: two executions on the same unchanged
input resource yield identical printed output. -/
theorem C8_deterministic (resource : Option (List String))
    (o1 o2 : RunOutcome)
    (h1 : o1 = runScript resource) (h2 : o2 = runScript resource) :
    o1.printed = o2.printed := by
  rw [h1, h2]

/-- Witness for C8 at the concrete resource `["banana"]`. -/
theorem C8_deterministic_witness :
    (runScript (some ["banana"])).printed
      = (runScript (some ["banana"])).printed :=
  C8_deterministic (some ["banana"]) _ _ rfl rfl

/-- C9: on a successful run the steps are exactly session initialization,
cached read, count for "a", count for "b", report, shutdown — each exactly
once, in that fixed order, with shutdown last, after reporting, and with no
failure. -/
theorem C9_steps_in_order (logData : List String) :
    (runScript (some logData)).steps
      = [Step.init, Step.read, Step.countA, Step.countB,
         Step.report, Step.shutdown] ∧
    (∀ s : Step, ((runScript (some logData)).steps).count s = 1) ∧
    (runScript (some logData)).failed = false := by
  refine ⟨rfl, ?_, rfl⟩
  intro s
  cases s <;> rfl

/-- C10: each count is bounded above by the total number of records, since
filtering can only remove records. -/
theorem C10_counts_bounded (logData : List String) :
    numAs logData ≤ logData.length ∧ numBs logData ≤ logData.length := by
  simp only [numAs, numBs, filterCount]
  exact ⟨List.length_filter_le _ _, List.length_filter_le _ _⟩
